import Mathlib

/-! Shallow embedding of the PillSyncOS alarm drivers
(src/functions/piezo_alarm.py and src/functions/neopixel_alarm.py).

Hardware calls, sleeps and prints are recorded as events in a trace.
Elapsed time is modelled as the sum of the sleeps executed, as the
specification does for the timing claims. A possible exception raised by a
call inside the pattern loop's try block is modelled by an optional fault
index over the operations attempted there; the operation whose running
counter equals the fault index raises instead of executing, and the
exception propagates to the finally block. -/

namespace PillSync

/-- Repeat a block of operations k times (the inner for-loop over a range). -/
def repBody {α : Type} : ℕ → List α → List α
  | 0, _ => []
  | k + 1, l => l ++ repBody k l

/-- Total time slept by a list of operations, given each operation's sleep time. -/
def opsTime {α : Type} (time : α → ℚ) : List α → ℚ
  | [] => 0
  | e :: es => time e + opsTime time es

/-- Number of operations in a list satisfying p. -/
def cnt {α : Type} (p : α → Bool) : List α → ℕ
  | [] => 0
  | e :: es => (if p e then 1 else 0) + cnt p es

/-- Run a straight-line block of operations, numbering them from counter c.
If the fault index equals an operation's number, that call raises instead of
executing. Returns the operations actually performed, the time slept, the
next counter value, and whether an exception was raised. -/
def execOps {α : Type} (time : α → ℚ) :
    List α → ℕ → Option ℕ → List α × ℚ × ℕ × Bool
  | [], c, _ => ([], 0, c, false)
  | e :: rest, c, fault =>
    if fault = some c then ([], 0, c, true)
    else
      let r := execOps time rest (c + 1) fault
      (e :: r.1, time e + r.2.1, r.2.2.1, r.2.2.2)

/-- The while-loop shared by alarm() and alarm_flash(): while the elapsed
time is below the duration, run one group body. Fuel bounds the number of
iterations; none means the fuel ran out with the loop still running.
Returns the number of completed iterations, the trace, and whether an
exception escaped the loop. -/
def patternLoop {α : Type} (time : α → ℚ) (body : List α) (D : ℚ) :
    ℕ → ℚ → ℕ → Option ℕ → Option (ℕ × List α × Bool)
  | 0, elapsed, _, _ => if elapsed < D then none else some (0, [], false)
  | fuel + 1, elapsed, c, fault =>
    if elapsed < D then
      let r := execOps time body c fault
      if r.2.2.2 then some (0, r.1, true)
      else
        match patternLoop time body D fuel (elapsed + r.2.1) r.2.2.1 fault with
        | none => none
        | some (k, es, ex) => some (k + 1, r.1 ++ es, ex)
    else some (0, [], false)

namespace Piezo

/-- Observable events of the piezo driver: GPIO calls, sleeps and prints. -/
inductive Ev : Type where
  | setmode : Ev
  | setup : Ev
  | output : Bool → Ev
  | gpioCleanup : Ev
  | sleep : ℚ → Ev
  | msg : String → Ev
deriving DecidableEq

/-- Sleep time of one event. -/
def Ev.time : Ev → ℚ
  | .sleep t => t
  | _ => 0

/-- Hardware (GPIO) events, as opposed to sleeps and prints. -/
def Ev.isHw : Ev → Bool
  | .setmode => true
  | .setup => true
  | .output _ => true
  | .gpioCleanup => true
  | _ => false

def Ev.isSleep : Ev → Bool
  | .sleep _ => true
  | _ => false

def Ev.isMsg : Ev → Bool
  | .msg _ => true
  | _ => false

def Ev.isOutput : Ev → Bool
  | .output _ => true
  | _ => false

/-- A write driving the pin HIGH (piezo energized). -/
def Ev.isActive : Ev → Bool
  | .output b => b
  | _ => false

/-- The module state: the global flag recording that GPIO was configured. -/
structure St where
  inited : Bool
deriving DecidableEq

/-- The line printed by alarm() in mock mode. -/
def mockNotice : String :=
  "[piezo_alarm MOCK] alarm() called – GPIO not available on this platform, doing nothing."

/-- Embeds _init_gpio: return early if already configured or if GPIO is
unavailable, otherwise set the mode, set the pin up as output and drive it
LOW, then record the configuration in the flag. -/
def init_gpio (avail : Bool) (s : St) : St × List Ev :=
  if s.inited then (s, [])
  else if avail then ({ inited := true }, [.setmode, .setup, .output false])
  else (s, [])

/-- One iteration of the alarm() while-loop: beeps_per_group beeps
(pin HIGH, sleep on-time, pin LOW, sleep off-time), then the group pause. -/
def groupOps (N : ℕ) (Ton Toff Tpause : ℚ) : List Ev :=
  repBody N [.output true, .sleep Ton, .output false, .sleep Toff] ++ [.sleep Tpause]

/-- Embeds alarm(). In mock mode it prints one notice and returns. Otherwise
it initializes GPIO, runs the pattern loop, and the finally block writes the
pin LOW on every exit, normal or exceptional. -/
def alarm (avail : Bool) (fuel : ℕ) (D : ℚ) (N : ℕ) (Ton Toff Tpause : ℚ)
    (fault : Option ℕ) (s : St) : Option (St × ℕ × List Ev × Bool) :=
  if avail then
    (patternLoop Ev.time (groupOps N Ton Toff Tpause) D fuel 0 0 fault).map
      fun p =>
        ((init_gpio avail s).1, p.1,
          (init_gpio avail s).2 ++ p.2.1 ++ [.output false], p.2.2)
  else some (s, 0, [.msg mockNotice], false)

/-- Embeds cleanup(): nothing in mock mode; when configured, drive the pin
LOW, release it via the GPIO cleanup primitive, and clear the flag. -/
def cleanup (avail : Bool) (s : St) : St × List Ev :=
  if avail then
    if s.inited then ({ inited := false }, [.output false, .gpioCleanup])
    else (s, [])
  else (s, [])

/-- A sequence of n successive _init_gpio calls, accumulating the trace. -/
def initN (avail : Bool) (s : St) : ℕ → St × List Ev
  | 0 => (s, [])
  | n + 1 =>
    let r := initN avail s n
    let r2 := init_gpio avail r.1
    (r2.1, r.2 ++ r2.2)

end Piezo

namespace Pixel

/-- An RGB color value. -/
abbrev Color := ℕ × ℕ × ℕ

/-- Observable events of the pixel driver: strip construction, fills, shows,
sleeps and prints. -/
inductive Ev : Type where
  | construct : Ev
  | fill : Color → Ev
  | showOp : Ev
  | sleep : ℚ → Ev
  | msg : String → Ev
deriving DecidableEq

/-- Sleep time of one event. -/
def Ev.time : Ev → ℚ
  | .sleep t => t
  | _ => 0

/-- Hardware (strip) events, as opposed to sleeps and prints. -/
def Ev.isHw : Ev → Bool
  | .construct => true
  | .fill _ => true
  | .showOp => true
  | _ => false

def Ev.isFill : Ev → Bool
  | .fill _ => true
  | _ => false

def Ev.isSleep : Ev → Bool
  | .sleep _ => true
  | _ => false

def Ev.isMsg : Ev → Bool
  | .msg _ => true
  | _ => false

/-- A fill with any color other than black. -/
def Ev.isNonBlackFill : Ev → Bool
  | .fill c => if c = (0, 0, 0) then false else true
  | _ => false

/-- The module state: whether the global _pixels handle is set (not None). -/
structure St where
  hasPixels : Bool
deriving DecidableEq

/-- The line printed by _init_pixels in mock mode. -/
def mockInitNotice : String :=
  "[neopixel_alarm MOCK] neopixel not available on this platform."

/-- The line printed by alarm_flash() in mock mode. -/
def mockAlarmNotice : String :=
  "[neopixel_alarm MOCK] alarm_flash() called – no neopixel hardware on this platform, doing nothing."

/-- Embeds _init_pixels: return the cached handle if set; in mock mode print
the notice and return no handle; otherwise construct the strip, fill it
black and show, and cache the handle. The Bool records whether a (non-None)
handle was returned. -/
def init_pixels (avail : Bool) (s : St) : St × List Ev × Bool :=
  if s.hasPixels then (s, [], true)
  else if avail then ({ hasPixels := true }, [.construct, .fill (0, 0, 0), .showOp], true)
  else (s, [.msg mockInitNotice], false)

/-- Embeds _set_all: obtain the handle via _init_pixels, and if one exists,
fill the strip with the color and push the update. -/
def set_all (avail : Bool) (c : Color) (s : St) : St × List Ev :=
  let r := init_pixels avail s
  if r.2.2 then (r.1, r.2.1 ++ [.fill c, .showOp])
  else (r.1, r.2.1)

/-- One iteration of the alarm_flash() while-loop with the strip already
initialized: group_flashes flashes, then the group pause; each _set_all call
unfolds to a fill followed by a show because the handle is cached. -/
def groupOps (N : ℕ) (Ton Toff : ℚ) (color : Color) (Tpause : ℚ) : List Ev :=
  repBody N [.fill color, .showOp, .sleep Ton, .fill (0, 0, 0), .showOp, .sleep Toff]
    ++ [.sleep Tpause]

/-- Embeds alarm_flash(). In mock mode it prints one notice and returns.
Otherwise it initializes the strip, runs the pattern loop, and the finally
block blacks out the strip via _set_all on every exit. -/
def alarm_flash (avail : Bool) (fuel : ℕ) (D Ton Toff : ℚ) (N : ℕ)
    (Tpause : ℚ) (color : Color) (fault : Option ℕ) (s : St) :
    Option (St × ℕ × List Ev × Bool) :=
  if avail then
    let r := init_pixels avail s
    (patternLoop Ev.time (groupOps N Ton Toff color Tpause) D fuel 0 0 fault).map
      fun p =>
        let fin := set_all avail (0, 0, 0) r.1
        (fin.1, p.1, r.2.1 ++ p.2.1 ++ fin.2, p.2.2)
  else some (s, 0, [.msg mockAlarmNotice], false)

/-- Embeds cleanup(): obtain the handle via _init_pixels and, if one exists,
black out the strip via _set_all. -/
def cleanup (avail : Bool) (s : St) : St × List Ev :=
  let r := init_pixels avail s
  if r.2.2 then
    let r2 := set_all avail (0, 0, 0) r.1
    (r2.1, r.2.1 ++ r2.2)
  else (r.1, r.2.1)

/-- A sequence of n successive _init_pixels calls, accumulating the trace. -/
def initN (avail : Bool) (s : St) : ℕ → St × List Ev
  | 0 => (s, [])
  | n + 1 =>
    let r := initN avail s n
    let r2 := init_pixels avail r.1
    (r2.1, r.2 ++ r2.2.1)

end Pixel

/-- Embeds the module-level try of piezo_alarm.py around the RPi.GPIO
import: a failing import is caught, RPI_AVAILABLE is set to False and the
mock GPIO object is substituted; nothing is printed in either case. Returns
the availability flag and the events performed at load. -/
def piezoModuleLoad (importResult : Except Unit Unit) : Bool × List Piezo.Ev :=
  match importResult with
  | .ok _ => (true, [])
  | .error _ => (false, [])

/-- Embeds the module-level try of neopixel_alarm.py around the board and
neopixel imports: a failing import is caught, NEOPIXEL_AVAILABLE is set to
False and the mock pixel class is substituted; nothing is printed in either
case. -/
def pixelModuleLoad (importResult : Except Unit Unit) : Bool × List Pixel.Ev :=
  match importResult with
  | .ok _ => (true, [])
  | .error _ => (false, [])

theorem opsTime_append {α : Type} (time : α → ℚ) (l1 l2 : List α) :
    opsTime time (l1 ++ l2) = opsTime time l1 + opsTime time l2 := by
  induction l1 with
  | nil => simp [opsTime]
  | cons e es ih => simp [opsTime, ih]; ring

theorem opsTime_repBody {α : Type} (time : α → ℚ) (k : ℕ) (l : List α) :
    opsTime time (repBody k l) = k * opsTime time l := by
  induction k with
  | zero => simp [repBody, opsTime]
  | succ k ih => simp [repBody, opsTime_append, ih]; ring

theorem cnt_append {α : Type} (p : α → Bool) (l1 l2 : List α) :
    cnt p (l1 ++ l2) = cnt p l1 + cnt p l2 := by
  induction l1 with
  | nil => simp [cnt]
  | cons e es ih => simp [cnt, ih]; omega

theorem cnt_repBody {α : Type} (p : α → Bool) (k : ℕ) (l : List α) :
    cnt p (repBody k l) = k * cnt p l := by
  induction k with
  | zero => simp [repBody, cnt]
  | succ k ih => simp [repBody, cnt_append, ih]; ring

theorem execOps_none {α : Type} (time : α → ℚ) (ops : List α) (c : ℕ) :
    execOps time ops c none = (ops, opsTime time ops, c + ops.length, false) := by
  induction ops generalizing c with
  | nil => simp [execOps, opsTime]
  | cons e rest ih => simp [execOps, opsTime, ih]; omega

theorem patternLoop_zero {α : Type} (time : α → ℚ) (body : List α) (D : ℚ)
    (elapsed : ℚ) (c : ℕ) (fault : Option ℕ) :
    patternLoop time body D 0 elapsed c fault =
      if elapsed < D then none else some (0, [], false) := rfl

theorem patternLoop_succ {α : Type} (time : α → ℚ) (body : List α) (D : ℚ)
    (fuel : ℕ) (elapsed : ℚ) (c : ℕ) (fault : Option ℕ) :
    patternLoop time body D (fuel + 1) elapsed c fault =
      if elapsed < D then
        if (execOps time body c fault).2.2.2 then
          some (0, (execOps time body c fault).1, true)
        else
          match patternLoop time body D fuel (elapsed + (execOps time body c fault).2.1)
              (execOps time body c fault).2.2.1 fault with
          | none => none
          | some (k, es, ex) => some (k + 1, (execOps time body c fault).1 ++ es, ex)
      else some (0, [], false) := rfl

theorem patternLoop_succ_none {α : Type} (time : α → ℚ) (body : List α) (D : ℚ)
    (fuel : ℕ) (elapsed : ℚ) (c : ℕ) (hD : elapsed < D) :
    patternLoop time body D (fuel + 1) elapsed c none =
      (patternLoop time body D fuel (elapsed + opsTime time body) (c + body.length) none).map
        fun r => (r.1 + 1, body ++ r.2.1, r.2.2) := by
  rw [patternLoop_succ, if_pos hD, execOps_none]
  cases patternLoop time body D fuel (elapsed + opsTime time body) (c + body.length) none with
  | none => rfl
  | some r => obtain ⟨k, es, ex⟩ := r; rfl

theorem patternLoop_exit {α : Type} (time : α → ℚ) (body : List α) (D : ℚ)
    (fuel : ℕ) (elapsed : ℚ) (c : ℕ) (fault : Option ℕ) (h : ¬ elapsed < D) :
    patternLoop time body D fuel elapsed c fault = some (0, [], false) := by
  cases fuel with
  | zero => rw [patternLoop_zero, if_neg h]
  | succ fuel => rw [patternLoop_succ, if_neg h]

theorem patternLoop_none_eq {α : Type} (time : α → ℚ) (body : List α) (D : ℚ) :
    ∀ fuel elapsed c k es ex,
      patternLoop time body D fuel elapsed c none = some (k, es, ex) →
      ex = false ∧ es = repBody k body ∧
        ¬ elapsed + k * opsTime time body < D ∧
        ∀ j : ℕ, j < k → elapsed + j * opsTime time body < D := by
  intro fuel
  induction fuel with
  | zero =>
    intro elapsed c k es ex h
    rw [patternLoop_zero] at h
    by_cases hD : elapsed < D
    · rw [if_pos hD] at h; exact absurd h (by simp)
    · rw [if_neg hD] at h
      injection h with h1
      injection h1 with hk h2
      injection h2 with hes hex
      subst hk; subst hes; subst hex
      refine ⟨rfl, rfl, by simpa using hD, by omega⟩
  | succ fuel ih =>
    intro elapsed c k es ex h
    by_cases hD : elapsed < D
    · rw [patternLoop_succ_none time body D fuel elapsed c hD] at h
      cases hre : patternLoop time body D fuel (elapsed + opsTime time body)
          (c + body.length) none with
      | none => rw [hre] at h; exact absurd h (by simp)
      | some r =>
        obtain ⟨k', es', ex'⟩ := r
        rw [hre] at h
        simp only [Option.map_some', Option.some.injEq, Prod.mk.injEq] at h
        obtain ⟨hk, hes, hex⟩ := h
        obtain ⟨hex', hes', hge, hlt⟩ := ih _ _ _ _ _ hre
        subst hk; subst hes; subst hex; subst hex'; subst hes'
        refine ⟨rfl, rfl, ?_, ?_⟩
        · push_cast
          intro hcon
          exact hge (by linarith)
        · intro j hj
          cases j with
          | zero => simpa using hD
          | succ j' =>
            have := hlt j' (by omega)
            push_cast at this ⊢
            linarith
    · rw [patternLoop_exit time body D _ elapsed c none hD] at h
      injection h with h1
      injection h1 with hk h2
      injection h2 with hes hex
      subst hk; subst hes; subst hex
      refine ⟨rfl, rfl, by simpa using hD, by omega⟩

theorem patternLoop_total {α : Type} (time : α → ℚ) (body : List α) (D : ℚ) :
    ∀ (fuel : ℕ) (elapsed : ℚ) (c : ℕ), D ≤ elapsed + (fuel : ℚ) * opsTime time body →
      ∃ k es, patternLoop time body D fuel elapsed c none = some (k, es, false) := by
  intro fuel
  induction fuel with
  | zero =>
    intro elapsed c h
    refine ⟨0, [], ?_⟩
    exact patternLoop_exit time body D 0 elapsed c none (by push_cast at h; linarith)
  | succ fuel ih =>
    intro elapsed c h
    by_cases hD : elapsed < D
    · obtain ⟨k, es, hre⟩ := ih (elapsed + opsTime time body) (c + body.length)
        (by push_cast at h ⊢; linarith)
      refine ⟨k + 1, body ++ es, ?_⟩
      rw [patternLoop_succ_none time body D fuel elapsed c hD, hre]
      rfl
    · exact ⟨0, [], patternLoop_exit time body D _ elapsed c none hD⟩

theorem patternLoop_iter_le {α : Type} (time : α → ℚ) (body : List α) (D : ℚ) :
    ∀ fuel elapsed c fault k es ex,
      patternLoop time body D fuel elapsed c fault = some (k, es, ex) → k ≤ fuel := by
  intro fuel
  induction fuel with
  | zero =>
    intro elapsed c fault k es ex h
    rw [patternLoop_zero] at h
    by_cases hD : elapsed < D
    · rw [if_pos hD] at h; exact absurd h (by simp)
    · rw [if_neg hD] at h
      injection h with h1
      injection h1 with hk h2
      omega
  | succ fuel ih =>
    intro elapsed c fault k es ex h
    by_cases hD : elapsed < D
    · rw [patternLoop_succ, if_pos hD] at h
      by_cases hab : (execOps time body c fault).2.2.2 = true
      · rw [if_pos hab] at h
        injection h with h1
        injection h1 with hk h2
        omega
      · rw [if_neg hab] at h
        cases hre : patternLoop time body D fuel
            (elapsed + (execOps time body c fault).2.1)
            (execOps time body c fault).2.2.1 fault with
        | none => rw [hre] at h; exact absurd h (by simp)
        | some r =>
          obtain ⟨k', es', ex'⟩ := r
          rw [hre] at h
          simp only [Option.some.injEq, Prod.mk.injEq] at h
          obtain ⟨hk, -, -⟩ := h
          have := ih _ _ _ _ _ _ hre
          omega
    · rw [patternLoop_exit time body D _ elapsed c fault hD] at h
      injection h with h1
      injection h1 with hk h2
      omega

theorem Piezo.alarm_true_eq (fuel : ℕ) (D : ℚ) (N : ℕ) (Ton Toff Tpause : ℚ)
    (fault : Option ℕ) (s : Piezo.St) :
    Piezo.alarm true fuel D N Ton Toff Tpause fault s =
      (patternLoop Piezo.Ev.time (Piezo.groupOps N Ton Toff Tpause) D fuel 0 0 fault).map
        fun p =>
          ((Piezo.init_gpio true s).1, p.1,
            (Piezo.init_gpio true s).2 ++ p.2.1 ++ [.output false], p.2.2) := rfl

theorem Pixel.alarm_flash_true_eq (fuel : ℕ) (D Ton Toff : ℚ) (N : ℕ)
    (Tpause : ℚ) (color : Pixel.Color) (fault : Option ℕ) (s : Pixel.St) :
    Pixel.alarm_flash true fuel D Ton Toff N Tpause color fault s =
      (patternLoop Pixel.Ev.time (Pixel.groupOps N Ton Toff color Tpause) D fuel 0 0 fault).map
        fun p =>
          ((Pixel.set_all true (0, 0, 0) (Pixel.init_pixels true s).1).1, p.1,
            (Pixel.init_pixels true s).2.1 ++ p.2.1 ++
              (Pixel.set_all true (0, 0, 0) (Pixel.init_pixels true s).1).2, p.2.2) := rfl

theorem Piezo.opsTime_groupOps (N : ℕ) (Ton Toff Tpause : ℚ) :
    opsTime Piezo.Ev.time (Piezo.groupOps N Ton Toff Tpause) =
      N * (Ton + Toff) + Tpause := by
  simp [Piezo.groupOps, opsTime_append, opsTime_repBody, opsTime, Piezo.Ev.time]

theorem Piezo.cnt_isOutput_groupOps (N : ℕ) (Ton Toff Tpause : ℚ) :
    cnt Piezo.Ev.isOutput (Piezo.groupOps N Ton Toff Tpause) = 2 * N := by
  simp [Piezo.groupOps, cnt_append, cnt_repBody, cnt, Piezo.Ev.isOutput]
  ring

theorem Piezo.opsTime_init_gpio (avail : Bool) (s : Piezo.St) :
    opsTime Piezo.Ev.time (Piezo.init_gpio avail s).2 = 0 := by
  obtain ⟨b⟩ := s
  cases b <;> cases avail <;> simp [Piezo.init_gpio, opsTime, Piezo.Ev.time]

theorem Pixel.opsTime_flashOps (N : ℕ) (Ton Toff : ℚ) (color : Pixel.Color)
    (Tpause : ℚ) :
    opsTime Pixel.Ev.time (Pixel.groupOps N Ton Toff color Tpause) =
      N * (Ton + Toff) + Tpause := by
  simp [Pixel.groupOps, opsTime_append, opsTime_repBody, opsTime, Pixel.Ev.time]

theorem Pixel.cnt_isFill_groupOps (N : ℕ) (Ton Toff : ℚ) (color : Pixel.Color)
    (Tpause : ℚ) :
    cnt Pixel.Ev.isFill (Pixel.groupOps N Ton Toff color Tpause) = 2 * N := by
  simp [Pixel.groupOps, cnt_append, cnt_repBody, cnt, Pixel.Ev.isFill]
  ring

theorem Pixel.opsTime_init_pixels (avail : Bool) (s : Pixel.St) :
    opsTime Pixel.Ev.time (Pixel.init_pixels avail s).2.1 = 0 := by
  obtain ⟨b⟩ := s
  cases b <;> cases avail <;> simp [Pixel.init_pixels, opsTime, Pixel.Ev.time]

theorem Pixel.init_pixels_true_fst (s : Pixel.St) :
    (Pixel.init_pixels true s).1 = ⟨true⟩ := by
  obtain ⟨b⟩ := s
  cases b <;> rfl

theorem Pixel.set_all_cached (c : Pixel.Color) :
    Pixel.set_all true c ⟨true⟩ = (⟨true⟩, [.fill c, .showOp]) := rfl

/-- C1: Off-on-exit invariant: for every parameter tuple and every exit path
of the pattern loop (normal duration expiry, or an exception raised by a
call mid-pattern, at any fault point), when alarm() / alarm_flash() returns
or propagates the failure, the last output operation performed is the
force-off write: the piezo trace ends with a LOW write, and the pixel trace
ends with a black fill followed by a show. -/
theorem C1_off_on_exit :
    (∀ (fuel : ℕ) (D : ℚ) (N : ℕ) (Ton Toff Tpause : ℚ) (fault : Option ℕ)
        (s s1 : Piezo.St) (k : ℕ) (tr : List Piezo.Ev) (ex : Bool),
        Piezo.alarm true fuel D N Ton Toff Tpause fault s = some (s1, k, tr, ex) →
        ∃ pre, tr = pre ++ [Piezo.Ev.output false]) ∧
    (∀ (fuel : ℕ) (D Ton Toff : ℚ) (N : ℕ) (Tpause : ℚ) (color : Pixel.Color)
        (fault : Option ℕ) (s s1 : Pixel.St) (k : ℕ) (tr : List Pixel.Ev) (ex : Bool),
        Pixel.alarm_flash true fuel D Ton Toff N Tpause color fault s = some (s1, k, tr, ex) →
        ∃ pre, tr = pre ++ [Pixel.Ev.fill (0, 0, 0), Pixel.Ev.showOp]) := by
  constructor
  · intro fuel D N Ton Toff Tpause fault s s1 k tr ex h
    rw [Piezo.alarm_true_eq] at h
    cases hp : patternLoop Piezo.Ev.time (Piezo.groupOps N Ton Toff Tpause) D fuel 0 0 fault with
    | none => rw [hp] at h; exact absurd h (by simp)
    | some p =>
      rw [hp] at h
      simp only [Option.map_some', Option.some.injEq, Prod.mk.injEq] at h
      obtain ⟨-, -, htr, -⟩ := h
      exact ⟨(Piezo.init_gpio true s).2 ++ p.2.1, by rw [← htr]⟩
  · intro fuel D Ton Toff N Tpause color fault s s1 k tr ex h
    rw [Pixel.alarm_flash_true_eq] at h
    cases hp : patternLoop Pixel.Ev.time (Pixel.groupOps N Ton Toff color Tpause) D fuel 0 0 fault with
    | none => rw [hp] at h; exact absurd h (by simp)
    | some p =>
      rw [hp] at h
      simp only [Option.map_some', Option.some.injEq, Prod.mk.injEq] at h
      obtain ⟨-, -, htr, -⟩ := h
      refine ⟨(Pixel.init_pixels true s).2.1 ++ p.2.1, ?_⟩
      rw [← htr, Pixel.init_pixels_true_fst, Pixel.set_all_cached]

/-- C1 witness: the invariant instantiated at two concrete runs, one
interrupted by a fault at the first loop call (exception propagated) and one
exiting by duration expiry. -/
theorem C1_off_on_exit_witness :
    (∃ pre, [Piezo.Ev.setmode, Piezo.Ev.setup, Piezo.Ev.output false,
        Piezo.Ev.output false] = pre ++ [Piezo.Ev.output false]) ∧
    (∃ pre, [Pixel.Ev.construct, Pixel.Ev.fill (0, 0, 0), Pixel.Ev.showOp,
        Pixel.Ev.fill (0, 0, 0), Pixel.Ev.showOp] =
        pre ++ [Pixel.Ev.fill (0, 0, 0), Pixel.Ev.showOp]) :=
  ⟨C1_off_on_exit.1 1 1 1 1 0 0 (some 0) ⟨false⟩ ⟨true⟩ 0
      [Piezo.Ev.setmode, Piezo.Ev.setup, Piezo.Ev.output false,
        Piezo.Ev.output false] true (by decide),
   C1_off_on_exit.2 1 0 0 0 1 0 (255, 0, 0) none ⟨false⟩ ⟨true⟩ 0
      [Pixel.Ev.construct, Pixel.Ev.fill (0, 0, 0), Pixel.Ev.showOp,
        Pixel.Ev.fill (0, 0, 0), Pixel.Ev.showOp] false (by decide)⟩

/-- C2: Mock-mode no-op: with the availability flag false, alarm() and
alarm_flash() return immediately for any duration with zero loop iterations,
no sleep event, no hardware output call, and exactly one mock-notice line
printed. -/
theorem C2_mock_mode_noop :
    (∀ (fuel : ℕ) (D : ℚ) (N : ℕ) (Ton Toff Tpause : ℚ) (fault : Option ℕ)
        (s : Piezo.St),
        Piezo.alarm false fuel D N Ton Toff Tpause fault s =
          some (s, 0, [.msg Piezo.mockNotice], false)) ∧
    cnt Piezo.Ev.isHw [.msg Piezo.mockNotice] = 0 ∧
    cnt Piezo.Ev.isSleep [.msg Piezo.mockNotice] = 0 ∧
    cnt Piezo.Ev.isMsg [.msg Piezo.mockNotice] = 1 ∧
    (∀ (fuel : ℕ) (D Ton Toff : ℚ) (N : ℕ) (Tpause : ℚ) (color : Pixel.Color)
        (fault : Option ℕ) (s : Pixel.St),
        Pixel.alarm_flash false fuel D Ton Toff N Tpause color fault s =
          some (s, 0, [.msg Pixel.mockAlarmNotice], false)) ∧
    cnt Pixel.Ev.isHw [.msg Pixel.mockAlarmNotice] = 0 ∧
    cnt Pixel.Ev.isSleep [.msg Pixel.mockAlarmNotice] = 0 ∧
    cnt Pixel.Ev.isMsg [.msg Pixel.mockAlarmNotice] = 1 := by
  refine ⟨fun _ _ _ _ _ _ _ _ => rfl, by decide, by decide, by decide,
    fun _ _ _ _ _ _ _ _ _ => rfl, by decide, by decide, by decide⟩

/-- C3 counterexample: the pixel driver falsifies the claim that cleanup()
is a no-op in mock mode or pre-init state: called before any init in
hardware mode it performs five hardware operations (it constructs and
initializes the strip), and in mock mode it prints the mock notice, an
observable side effect. -/
theorem C3_counterexample :
    cnt Pixel.Ev.isHw (Pixel.cleanup true ⟨false⟩).2 = 5 ∧
    (Pixel.cleanup false ⟨false⟩).2 = [.msg Pixel.mockInitNotice] := by
  exact ⟨by decide, by decide⟩

/-- C3 amended: cleanup() never raises and always leaves the output
INACTIVE/black (no HIGH write, no non-black fill, and the only traces with
events end in the force-off operations). The piezo cleanup is a no-op in
mock mode or in the pre-init state. The pixel cleanup is NOT a no-op there:
in mock mode it prints the mock notice (but performs no hardware
operation), and in the pre-init hardware state it first initializes the
strip (construct, black fill, show) before blacking it out again. -/
theorem C3_cleanup_safety :
    (∀ s : Piezo.St, Piezo.cleanup false s = (s, [])) ∧
    Piezo.cleanup true ⟨false⟩ = (⟨false⟩, []) ∧
    Piezo.cleanup true ⟨true⟩ = (⟨false⟩, [.output false, .gpioCleanup]) ∧
    (∀ (avail : Bool) (s : Piezo.St),
        cnt Piezo.Ev.isActive (Piezo.cleanup avail s).2 = 0) ∧
    Pixel.cleanup false ⟨false⟩ = (⟨false⟩, [.msg Pixel.mockInitNotice]) ∧
    cnt Pixel.Ev.isHw (Pixel.cleanup false ⟨false⟩).2 = 0 ∧
    Pixel.cleanup true ⟨false⟩ =
      (⟨true⟩, [.construct, .fill (0, 0, 0), .showOp, .fill (0, 0, 0), .showOp]) ∧
    Pixel.cleanup true ⟨true⟩ = (⟨true⟩, [.fill (0, 0, 0), .showOp]) ∧
    (∀ (avail : Bool) (s : Pixel.St),
        cnt Pixel.Ev.isNonBlackFill (Pixel.cleanup avail s).2 = 0) := by
  refine ⟨?_, by decide, by decide, ?_, by decide, by decide, by decide, by decide, ?_⟩
  · rintro ⟨b⟩; cases b <;> rfl
  · rintro avail ⟨b⟩; cases avail <;> cases b <;> decide
  · rintro avail ⟨b⟩; cases avail <;> cases b <;> decide

/-- C4: Idempotent lazy init: any number of successive init calls performs
the hardware-configuration side effects exactly once, on the first call with
hardware available (the whole accumulated trace equals one setup sequence);
starting from an already-initialized state every call is a no-op; and in
mock mode init performs no hardware setup and yields no handle. -/
theorem C4_idempotent_init :
    (∀ n : ℕ, 1 ≤ n →
        Piezo.initN true ⟨false⟩ n = (⟨true⟩, [.setmode, .setup, .output false])) ∧
    (∀ (n : ℕ) (s : Piezo.St), Piezo.initN false s n = (s, [])) ∧
    (∀ (n : ℕ) (avail : Bool), Piezo.initN avail ⟨true⟩ n = (⟨true⟩, [])) ∧
    (∀ n : ℕ, 1 ≤ n →
        Pixel.initN true ⟨false⟩ n = (⟨true⟩, [.construct, .fill (0, 0, 0), .showOp])) ∧
    (∀ (n : ℕ) (avail : Bool), Pixel.initN avail ⟨true⟩ n = (⟨true⟩, [])) ∧
    (∀ (n : ℕ) (s : Pixel.St), cnt Pixel.Ev.isHw (Pixel.initN false s n).2 = 0) ∧
    (Pixel.init_pixels false ⟨false⟩).2.2 = false := by
  have hmock : ∀ st : Pixel.St, cnt Pixel.Ev.isHw (Pixel.init_pixels false st).2.1 = 0 := by
    rintro ⟨b⟩; cases b <;> rfl
  refine ⟨?_, ?_, ?_, ?_, ?_, ?_, rfl⟩
  · intro n hn
    induction n with
    | zero => omega
    | succ m ih =>
      rcases Nat.eq_zero_or_pos m with h0 | hpos
      · subst h0; rfl
      · have hm := ih hpos
        show (let r := Piezo.initN true ⟨false⟩ m
              let r2 := Piezo.init_gpio true r.1
              (r2.1, r.2 ++ r2.2)) = _
        rw [hm]
        rfl
  · intro n s
    induction n with
    | zero => rfl
    | succ m ih =>
      show (let r := Piezo.initN false s m
            let r2 := Piezo.init_gpio false r.1
            (r2.1, r.2 ++ r2.2)) = _
      rw [ih]
      obtain ⟨b⟩ := s
      cases b <;> rfl
  · intro n avail
    induction n with
    | zero => rfl
    | succ m ih =>
      show (let r := Piezo.initN avail ⟨true⟩ m
            let r2 := Piezo.init_gpio avail r.1
            (r2.1, r.2 ++ r2.2)) = _
      rw [ih]
      cases avail <;> rfl
  · intro n hn
    induction n with
    | zero => omega
    | succ m ih =>
      rcases Nat.eq_zero_or_pos m with h0 | hpos
      · subst h0; rfl
      · have hm := ih hpos
        show (let r := Pixel.initN true ⟨false⟩ m
              let r2 := Pixel.init_pixels true r.1
              (r2.1, r.2 ++ r2.2.1)) = _
        rw [hm]
        rfl
  · intro n avail
    induction n with
    | zero => rfl
    | succ m ih =>
      show (let r := Pixel.initN avail ⟨true⟩ m
            let r2 := Pixel.init_pixels avail r.1
            (r2.1, r.2 ++ r2.2.1)) = _
      rw [ih]
      cases avail <;> rfl
  · intro n s
    induction n with
    | zero => rfl
    | succ m ih =>
      show cnt Pixel.Ev.isHw
        (let r := Pixel.initN false s m
         let r2 := Pixel.init_pixels false r.1
         (r2.1, r.2 ++ r2.2.1)).2 = 0
      simp only [cnt_append]
      rw [show cnt Pixel.Ev.isHw (Pixel.initN false s m).2 = 0 from ih,
        hmock (Pixel.initN false s m).1]

/-- C4 witness: two successive init calls, with hardware and from the fresh
state, leave exactly the one-time setup trace for both drivers. -/
theorem C4_idempotent_init_witness :
    Piezo.initN true ⟨false⟩ 2 = (⟨true⟩, [.setmode, .setup, .output false]) ∧
    Pixel.initN true ⟨false⟩ 2 = (⟨true⟩, [.construct, .fill (0, 0, 0), .showOp]) :=
  ⟨C4_idempotent_init.1 2 (by decide), C4_idempotent_init.2.2.2.1 2 (by decide)⟩

theorem Piezo.opsTime_offWrite :
    opsTime Piezo.Ev.time [Piezo.Ev.output false] = 0 := by
  simp [opsTime, Piezo.Ev.time]

theorem Pixel.opsTime_blackout :
    opsTime Pixel.Ev.time [Pixel.Ev.fill (0, 0, 0), Pixel.Ev.showOp] = 0 := by
  simp [opsTime, Pixel.Ev.time]

/-- C5: Pattern shape: with hardware available and no fault, the loop trace
is exactly k whole repetitions of the group body (N times ACTIVE, hold
on-time, INACTIVE, hold off-time, then the group pause), the loop runs until
the elapsed time reaches the duration, and the loop body's toggle count is
2·N·k, a multiple of 2N. -/
theorem C5_pattern_shape :
    (∀ (fuel : ℕ) (D : ℚ) (N : ℕ) (Ton Toff Tpause : ℚ) (s s1 : Piezo.St)
        (k : ℕ) (tr : List Piezo.Ev) (ex : Bool),
        Piezo.alarm true fuel D N Ton Toff Tpause none s = some (s1, k, tr, ex) →
        ex = false ∧
        tr = (Piezo.init_gpio true s).2 ++
          repBody k (Piezo.groupOps N Ton Toff Tpause) ++ [Piezo.Ev.output false] ∧
        cnt Piezo.Ev.isOutput (repBody k (Piezo.groupOps N Ton Toff Tpause)) = 2 * N * k ∧
        D ≤ k * ((N : ℚ) * (Ton + Toff) + Tpause)) ∧
    (∀ (fuel : ℕ) (D Ton Toff : ℚ) (N : ℕ) (Tpause : ℚ) (color : Pixel.Color)
        (s s1 : Pixel.St) (k : ℕ) (tr : List Pixel.Ev) (ex : Bool),
        Pixel.alarm_flash true fuel D Ton Toff N Tpause color none s = some (s1, k, tr, ex) →
        ex = false ∧
        tr = (Pixel.init_pixels true s).2.1 ++
          repBody k (Pixel.groupOps N Ton Toff color Tpause) ++
          [Pixel.Ev.fill (0, 0, 0), Pixel.Ev.showOp] ∧
        cnt Pixel.Ev.isFill (repBody k (Pixel.groupOps N Ton Toff color Tpause)) = 2 * N * k ∧
        D ≤ k * ((N : ℚ) * (Ton + Toff) + Tpause)) := by
  constructor
  · intro fuel D N Ton Toff Tpause s s1 k tr ex h
    rw [Piezo.alarm_true_eq] at h
    cases hp : patternLoop Piezo.Ev.time (Piezo.groupOps N Ton Toff Tpause) D fuel 0 0 none with
    | none => rw [hp] at h; exact absurd h (by simp)
    | some p =>
      obtain ⟨k2, es, ex2⟩ := p
      rw [hp] at h
      simp only [Option.map_some', Option.some.injEq, Prod.mk.injEq] at h
      obtain ⟨-, hk, htr, hex⟩ := h
      obtain ⟨hex2, hes, hge, -⟩ := patternLoop_none_eq _ _ _ _ _ _ _ _ _ hp
      subst hk
      subst hes
      refine ⟨hex ▸ hex2, htr.symm, ?_, ?_⟩
      · rw [cnt_repBody, Piezo.cnt_isOutput_groupOps]; ring
      · have hD := not_lt.mp hge
        rw [Piezo.opsTime_groupOps] at hD
        linarith
  · intro fuel D Ton Toff N Tpause color s s1 k tr ex h
    rw [Pixel.alarm_flash_true_eq] at h
    cases hp : patternLoop Pixel.Ev.time (Pixel.groupOps N Ton Toff color Tpause) D fuel 0 0 none with
    | none => rw [hp] at h; exact absurd h (by simp)
    | some p =>
      obtain ⟨k2, es, ex2⟩ := p
      rw [hp] at h
      simp only [Option.map_some', Option.some.injEq, Prod.mk.injEq] at h
      obtain ⟨-, hk, htr, hex⟩ := h
      obtain ⟨hex2, hes, hge, -⟩ := patternLoop_none_eq _ _ _ _ _ _ _ _ _ hp
      subst hk
      subst hes
      rw [Pixel.init_pixels_true_fst, Pixel.set_all_cached] at htr
      refine ⟨hex ▸ hex2, htr.symm, ?_, ?_⟩
      · rw [cnt_repBody, Pixel.cnt_isFill_groupOps]; ring
      · have hD := not_lt.mp hge
        rw [Pixel.opsTime_flashOps] at hD
        linarith

/-- C5 witness: instantiated at zero-iteration runs with duration 0, for
the piezo pattern with N = 3 and the pixel pattern with N = 1. -/
theorem C5_pattern_shape_witness :
    (false = false ∧
      [Piezo.Ev.setmode, Piezo.Ev.setup, Piezo.Ev.output false, Piezo.Ev.output false] =
        (Piezo.init_gpio true ⟨false⟩).2 ++ repBody 0 (Piezo.groupOps 3 1 1 1) ++
          [Piezo.Ev.output false] ∧
      cnt Piezo.Ev.isOutput (repBody 0 (Piezo.groupOps 3 1 1 1)) = 2 * 3 * 0 ∧
      (0 : ℚ) ≤ (0 : ℕ) * (((3 : ℕ) : ℚ) * (1 + 1) + 1)) ∧
    (false = false ∧
      [Pixel.Ev.construct, Pixel.Ev.fill (0, 0, 0), Pixel.Ev.showOp,
          Pixel.Ev.fill (0, 0, 0), Pixel.Ev.showOp] =
        (Pixel.init_pixels true ⟨false⟩).2.1 ++
          repBody 0 (Pixel.groupOps 1 1 0 (255, 0, 0) 0) ++
          [Pixel.Ev.fill (0, 0, 0), Pixel.Ev.showOp] ∧
      cnt Pixel.Ev.isFill (repBody 0 (Pixel.groupOps 1 1 0 (255, 0, 0) 0)) = 2 * 1 * 0 ∧
      (0 : ℚ) ≤ (0 : ℕ) * (((1 : ℕ) : ℚ) * (1 + 0) + 0)) :=
  ⟨C5_pattern_shape.1 1 0 3 1 1 1 ⟨false⟩ ⟨true⟩ 0
      [Piezo.Ev.setmode, Piezo.Ev.setup, Piezo.Ev.output false, Piezo.Ev.output false]
      false (by decide),
   C5_pattern_shape.2 1 0 1 0 1 0 (255, 0, 0) ⟨false⟩ ⟨true⟩ 0
      [Pixel.Ev.construct, Pixel.Ev.fill (0, 0, 0), Pixel.Ev.showOp,
        Pixel.Ev.fill (0, 0, 0), Pixel.Ev.showOp] false (by decide)⟩

/-- C6: Duration overshoot bound: with elapsed time modelled as the sum of
executed sleeps, for positive duration and nonnegative timing parameters,
any terminating fault-free run of alarm() / alarm_flash() blocks for at
most D plus one full group-plus-pause cycle N·(Ton+Toff)+Tpause. -/
theorem C6_duration_overshoot :
    (∀ (fuel : ℕ) (D : ℚ) (N : ℕ) (Ton Toff Tpause : ℚ) (s s1 : Piezo.St)
        (k : ℕ) (tr : List Piezo.Ev) (ex : Bool),
        0 < D → 0 ≤ Ton → 0 ≤ Toff → 0 ≤ Tpause →
        Piezo.alarm true fuel D N Ton Toff Tpause none s = some (s1, k, tr, ex) →
        opsTime Piezo.Ev.time tr ≤ D + ((N : ℚ) * (Ton + Toff) + Tpause)) ∧
    (∀ (fuel : ℕ) (D Ton Toff : ℚ) (N : ℕ) (Tpause : ℚ) (color : Pixel.Color)
        (s s1 : Pixel.St) (k : ℕ) (tr : List Pixel.Ev) (ex : Bool),
        0 < D → 0 ≤ Ton → 0 ≤ Toff → 0 ≤ Tpause →
        Pixel.alarm_flash true fuel D Ton Toff N Tpause color none s = some (s1, k, tr, ex) →
        opsTime Pixel.Ev.time tr ≤ D + ((N : ℚ) * (Ton + Toff) + Tpause)) := by
  constructor
  · intro fuel D N Ton Toff Tpause s s1 k tr ex hD hTon hToff hTp h
    rw [Piezo.alarm_true_eq] at h
    cases hp : patternLoop Piezo.Ev.time (Piezo.groupOps N Ton Toff Tpause) D fuel 0 0 none with
    | none => rw [hp] at h; exact absurd h (by simp)
    | some p =>
      obtain ⟨k2, es, ex2⟩ := p
      rw [hp] at h
      simp only [Option.map_some', Option.some.injEq, Prod.mk.injEq] at h
      obtain ⟨-, -, htr, -⟩ := h
      obtain ⟨-, hes, -, hlt⟩ := patternLoop_none_eq _ _ _ _ _ _ _ _ _ hp
      subst hes
      rw [← htr, opsTime_append, opsTime_append, Piezo.opsTime_init_gpio,
        opsTime_repBody, Piezo.opsTime_groupOps, Piezo.opsTime_offWrite]
      have hC : (0 : ℚ) ≤ (N : ℚ) * (Ton + Toff) + Tpause :=
        add_nonneg (mul_nonneg (Nat.cast_nonneg N) (add_nonneg hTon hToff)) hTp
      cases k2 with
      | zero => push_cast; nlinarith
      | succ j =>
        have hj := hlt j (Nat.lt_succ_self j)
        rw [Piezo.opsTime_groupOps] at hj
        push_cast
        nlinarith
  · intro fuel D Ton Toff N Tpause color s s1 k tr ex hD hTon hToff hTp h
    rw [Pixel.alarm_flash_true_eq] at h
    cases hp : patternLoop Pixel.Ev.time (Pixel.groupOps N Ton Toff color Tpause) D fuel 0 0 none with
    | none => rw [hp] at h; exact absurd h (by simp)
    | some p =>
      obtain ⟨k2, es, ex2⟩ := p
      rw [hp] at h
      simp only [Option.map_some', Option.some.injEq, Prod.mk.injEq] at h
      obtain ⟨-, -, htr, -⟩ := h
      obtain ⟨-, hes, -, hlt⟩ := patternLoop_none_eq _ _ _ _ _ _ _ _ _ hp
      subst hes
      rw [Pixel.init_pixels_true_fst, Pixel.set_all_cached] at htr
      rw [← htr, opsTime_append, opsTime_append, Pixel.opsTime_init_pixels,
        opsTime_repBody, Pixel.opsTime_flashOps, Pixel.opsTime_blackout]
      have hC : (0 : ℚ) ≤ (N : ℚ) * (Ton + Toff) + Tpause :=
        add_nonneg (mul_nonneg (Nat.cast_nonneg N) (add_nonneg hTon hToff)) hTp
      cases k2 with
      | zero => push_cast; nlinarith
      | succ j =>
        have hj := hlt j (Nat.lt_succ_self j)
        rw [Pixel.opsTime_flashOps] at hj
        push_cast
        nlinarith

theorem Piezo.run_one_group :
    Piezo.alarm true 2 1 1 1 0 0 none ⟨false⟩ =
      some (⟨true⟩, 1, [.setmode, .setup, .output false, .output true, .sleep 1,
        .output false, .sleep 0, .sleep 0, .output false], false) := by
  have hT : opsTime Piezo.Ev.time (Piezo.groupOps 1 1 0 0) = 1 := by
    rw [Piezo.opsTime_groupOps]; norm_num
  have hne : ¬ ((0 : ℚ) + opsTime Piezo.Ev.time (Piezo.groupOps 1 1 0 0) < 1) := by
    rw [hT]; norm_num
  have hloop : patternLoop Piezo.Ev.time (Piezo.groupOps 1 1 0 0) 1 2 0 0 none =
      some (1, Piezo.groupOps 1 1 0 0, false) := by
    rw [show (2 : ℕ) = 1 + 1 from rfl,
      patternLoop_succ_none Piezo.Ev.time (Piezo.groupOps 1 1 0 0) 1 1 0 0 (by norm_num),
      patternLoop_exit _ _ _ _ _ _ _ hne]
    rfl
  rw [Piezo.alarm_true_eq, hloop]
  rfl

theorem Pixel.run_one_flash :
    Pixel.alarm_flash true 2 1 1 0 1 0 (255, 0, 0) none ⟨false⟩ =
      some (⟨true⟩, 1, [.construct, .fill (0, 0, 0), .showOp, .fill (255, 0, 0),
        .showOp, .sleep 1, .fill (0, 0, 0), .showOp, .sleep 0, .sleep 0,
        .fill (0, 0, 0), .showOp], false) := by
  have hT : opsTime Pixel.Ev.time (Pixel.groupOps 1 1 0 (255, 0, 0) 0) = 1 := by
    rw [Pixel.opsTime_flashOps]; norm_num
  have hne : ¬ ((0 : ℚ) + opsTime Pixel.Ev.time (Pixel.groupOps 1 1 0 (255, 0, 0) 0) < 1) := by
    rw [hT]; norm_num
  have hloop : patternLoop Pixel.Ev.time (Pixel.groupOps 1 1 0 (255, 0, 0) 0) 1 2 0 0 none =
      some (1, Pixel.groupOps 1 1 0 (255, 0, 0) 0, false) := by
    rw [show (2 : ℕ) = 1 + 1 from rfl,
      patternLoop_succ_none Pixel.Ev.time (Pixel.groupOps 1 1 0 (255, 0, 0) 0) 1 1 0 0
        (by norm_num),
      patternLoop_exit _ _ _ _ _ _ _ hne]
    rfl
  rw [Pixel.alarm_flash_true_eq, hloop]
  rfl

/-- C6 witness: the bound instantiated at concrete one-iteration runs of
both drivers with D = 1 and group cycle time 1. -/
theorem C6_duration_overshoot_witness :
    opsTime Piezo.Ev.time [Piezo.Ev.setmode, Piezo.Ev.setup, Piezo.Ev.output false,
        Piezo.Ev.output true, Piezo.Ev.sleep 1, Piezo.Ev.output false, Piezo.Ev.sleep 0,
        Piezo.Ev.sleep 0, Piezo.Ev.output false] ≤ 1 + (((1 : ℕ) : ℚ) * (1 + 0) + 0) ∧
    opsTime Pixel.Ev.time [Pixel.Ev.construct, Pixel.Ev.fill (0, 0, 0), Pixel.Ev.showOp,
        Pixel.Ev.fill (255, 0, 0), Pixel.Ev.showOp, Pixel.Ev.sleep 1,
        Pixel.Ev.fill (0, 0, 0), Pixel.Ev.showOp, Pixel.Ev.sleep 0, Pixel.Ev.sleep 0,
        Pixel.Ev.fill (0, 0, 0), Pixel.Ev.showOp] ≤ 1 + (((1 : ℕ) : ℚ) * (1 + 0) + 0) :=
  ⟨C6_duration_overshoot.1 2 1 1 1 0 0 ⟨false⟩ ⟨true⟩ 1
      [Piezo.Ev.setmode, Piezo.Ev.setup, Piezo.Ev.output false, Piezo.Ev.output true,
        Piezo.Ev.sleep 1, Piezo.Ev.output false, Piezo.Ev.sleep 0, Piezo.Ev.sleep 0,
        Piezo.Ev.output false] false (by norm_num) (by norm_num) le_rfl le_rfl
      Piezo.run_one_group,
   C6_duration_overshoot.2 2 1 1 0 1 0 (255, 0, 0) ⟨false⟩ ⟨true⟩ 1
      [Pixel.Ev.construct, Pixel.Ev.fill (0, 0, 0), Pixel.Ev.showOp,
        Pixel.Ev.fill (255, 0, 0), Pixel.Ev.showOp, Pixel.Ev.sleep 1,
        Pixel.Ev.fill (0, 0, 0), Pixel.Ev.showOp, Pixel.Ev.sleep 0, Pixel.Ev.sleep 0,
        Pixel.Ev.fill (0, 0, 0), Pixel.Ev.showOp] false (by norm_num) (by norm_num)
      le_rfl le_rfl Pixel.run_one_flash⟩

/-- C7 counterexample: the claim that a one-line mock notice is emitted at
the point of failed hardware acquisition (module load, process start) is
false: the module-level except blocks of both drivers print nothing, so the
load trace on a failing import contains no message event. -/
theorem C7_counterexample :
    cnt Piezo.Ev.isMsg (piezoModuleLoad (Except.error ())).2 = 0 ∧
    cnt Pixel.Ev.isMsg (pixelModuleLoad (Except.error ())).2 = 0 :=
  ⟨rfl, rfl⟩

/-- C7 amended: hardware acquisition is attempted exactly once, at module
load; if it fails the availability flag is set false, the mock abstraction
is substituted, and no exception surfaces (the load is a total function of
the import outcome) — but no notice is printed at load: the one-line mock
notice is emitted lazily instead, on each mock-mode alarm()/alarm_flash()
call, and for the pixel driver on each un-cached mock _init_pixels() call. -/
theorem C7_availability_detection :
    piezoModuleLoad (Except.error ()) = (false, []) ∧
    piezoModuleLoad (Except.ok ()) = (true, []) ∧
    pixelModuleLoad (Except.error ()) = (false, []) ∧
    pixelModuleLoad (Except.ok ()) = (true, []) ∧
    (∀ (fuel : ℕ) (D : ℚ) (N : ℕ) (Ton Toff Tpause : ℚ) (fault : Option ℕ)
        (s : Piezo.St),
        Piezo.alarm false fuel D N Ton Toff Tpause fault s =
          some (s, 0, [.msg Piezo.mockNotice], false)) ∧
    Pixel.init_pixels false ⟨false⟩ = (⟨false⟩, [.msg Pixel.mockInitNotice], false) :=
  ⟨rfl, rfl, rfl, rfl, fun _ _ _ _ _ _ _ _ => rfl, rfl⟩

/-- C8: Piezo cleanup from the initialized hardware state drives the pin
LOW, releases the pin via the GPIO cleanup primitive and resets the flag, so
that a subsequent _init_gpio performs the full configuration again instead
of returning early. -/
theorem C8_piezo_cleanup_rearms :
    ∀ s : Piezo.St, s.inited = true →
      Piezo.cleanup true s = (⟨false⟩, [.output false, .gpioCleanup]) ∧
      Piezo.init_gpio true (Piezo.cleanup true s).1 =
        (⟨true⟩, [.setmode, .setup, .output false]) := by
  rintro ⟨b⟩ hb
  cases b
  · exact absurd hb (by decide)
  · exact ⟨rfl, rfl⟩

/-- C8 witness: instantiated at the initialized state. -/
theorem C8_piezo_cleanup_rearms_witness :
    Piezo.cleanup true ⟨true⟩ = (⟨false⟩, [.output false, .gpioCleanup]) ∧
    Piezo.init_gpio true (Piezo.cleanup true ⟨true⟩).1 =
      (⟨true⟩, [.setmode, .setup, .output false]) :=
  C8_piezo_cleanup_rearms ⟨true⟩ rfl

/-- C9: Non-positive duration: with hardware available, for any duration at
most zero and any fault point, the loop body runs zero times (no ACTIVE
write and no sleep appear in the trace), the final force-off write still
executes exactly once, and alarm_flash still initializes the strip before
the loop. -/
theorem C9_nonpositive_duration :
    (∀ (fuel : ℕ) (D : ℚ) (N : ℕ) (Ton Toff Tpause : ℚ) (fault : Option ℕ)
        (s : Piezo.St), D ≤ 0 →
        Piezo.alarm true fuel D N Ton Toff Tpause fault s =
          some ((Piezo.init_gpio true s).1, 0,
            (Piezo.init_gpio true s).2 ++ [.output false], false)) ∧
    (∀ (fuel : ℕ) (D Ton Toff : ℚ) (N : ℕ) (Tpause : ℚ) (color : Pixel.Color)
        (fault : Option ℕ) (s : Pixel.St), D ≤ 0 →
        Pixel.alarm_flash true fuel D Ton Toff N Tpause color fault s =
          some (⟨true⟩, 0,
            (Pixel.init_pixels true s).2.1 ++ [.fill (0, 0, 0), .showOp], false)) := by
  constructor
  · intro fuel D N Ton Toff Tpause fault s hD
    rw [Piezo.alarm_true_eq, patternLoop_exit _ _ _ _ _ _ _ (not_lt.mpr hD)]
    simp
  · intro fuel D Ton Toff N Tpause color fault s hD
    rw [Pixel.alarm_flash_true_eq, patternLoop_exit _ _ _ _ _ _ _ (not_lt.mpr hD),
      Pixel.init_pixels_true_fst, Pixel.set_all_cached]
    simp

/-- C9 witness: instantiated at duration 0 from the fresh state. -/
theorem C9_nonpositive_duration_witness :
    Piezo.alarm true 3 0 2 1 1 1 none ⟨false⟩ =
      some ((Piezo.init_gpio true ⟨false⟩).1, 0,
        (Piezo.init_gpio true ⟨false⟩).2 ++ [.output false], false) ∧
    Pixel.alarm_flash true 3 0 1 1 2 1 (255, 0, 0) none ⟨false⟩ =
      some (⟨true⟩, 0,
        (Pixel.init_pixels true ⟨false⟩).2.1 ++ [.fill (0, 0, 0), .showOp], false) :=
  ⟨C9_nonpositive_duration.1 3 0 2 1 1 1 none ⟨false⟩ le_rfl,
   C9_nonpositive_duration.2 3 0 1 1 2 1 (255, 0, 0) none ⟨false⟩ le_rfl⟩

theorem ceil_fuel_big (D C : ℚ) (hC : 0 < C) :
    D ≤ 0 + ((⌈D / C⌉.toNat : ℕ) : ℚ) * C := by
  rcases le_or_lt D 0 with h0 | h0
  · have h1 : (0 : ℚ) ≤ ((⌈D / C⌉.toNat : ℕ) : ℚ) * C :=
      mul_nonneg (Nat.cast_nonneg _) hC.le
    linarith
  · have h1 : (0 : ℤ) < ⌈D / C⌉ := Int.ceil_pos.mpr (div_pos h0 hC)
    have h2 : ((⌈D / C⌉.toNat : ℕ) : ℤ) = ⌈D / C⌉ := Int.toNat_of_nonneg h1.le
    have h3 : ((⌈D / C⌉.toNat : ℕ) : ℚ) = ((⌈D / C⌉ : ℤ) : ℚ) := by exact_mod_cast h2
    have h4 : D / C ≤ ((⌈D / C⌉ : ℤ) : ℚ) := Int.le_ceil _
    have h5 : D ≤ ((⌈D / C⌉ : ℤ) : ℚ) * C := (div_le_iff₀ hC).mp h4
    rw [h3]
    linarith

/-- C10: Termination: with hardware available, no fault and a strictly
positive group cycle time N·(Ton+Toff)+Tpause, alarm() / alarm_flash()
terminates for every finite duration D: some fuel completes the loop, with
the number of outer iterations bounded by ⌈D / cycle⌉ (taken in ℕ). -/
theorem C10_termination :
    (∀ (D : ℚ) (N : ℕ) (Ton Toff Tpause : ℚ) (s : Piezo.St),
        0 < (N : ℚ) * (Ton + Toff) + Tpause →
        ∃ (fuel : ℕ) (s1 : Piezo.St) (k : ℕ) (tr : List Piezo.Ev),
          Piezo.alarm true fuel D N Ton Toff Tpause none s = some (s1, k, tr, false) ∧
          k ≤ (⌈D / ((N : ℚ) * (Ton + Toff) + Tpause)⌉).toNat) ∧
    (∀ (D Ton Toff : ℚ) (N : ℕ) (Tpause : ℚ) (color : Pixel.Color) (s : Pixel.St),
        0 < (N : ℚ) * (Ton + Toff) + Tpause →
        ∃ (fuel : ℕ) (s1 : Pixel.St) (k : ℕ) (tr : List Pixel.Ev),
          Pixel.alarm_flash true fuel D Ton Toff N Tpause color none s =
            some (s1, k, tr, false) ∧
          k ≤ (⌈D / ((N : ℚ) * (Ton + Toff) + Tpause)⌉).toNat) := by
  constructor
  · intro D N Ton Toff Tpause s hcyc
    obtain ⟨k, es, hre⟩ := patternLoop_total Piezo.Ev.time (Piezo.groupOps N Ton Toff Tpause)
      D (⌈D / ((N : ℚ) * (Ton + Toff) + Tpause)⌉).toNat 0 0
      (by rw [Piezo.opsTime_groupOps]; exact ceil_fuel_big D _ hcyc)
    refine ⟨(⌈D / ((N : ℚ) * (Ton + Toff) + Tpause)⌉).toNat, (Piezo.init_gpio true s).1, k,
      (Piezo.init_gpio true s).2 ++ es ++ [.output false], ?_, ?_⟩
    · rw [Piezo.alarm_true_eq, hre]
      rfl
    · exact patternLoop_iter_le _ _ _ _ _ _ _ _ _ _ hre
  · intro D Ton Toff N Tpause color s hcyc
    obtain ⟨k, es, hre⟩ := patternLoop_total Pixel.Ev.time
      (Pixel.groupOps N Ton Toff color Tpause)
      D (⌈D / ((N : ℚ) * (Ton + Toff) + Tpause)⌉).toNat 0 0
      (by rw [Pixel.opsTime_flashOps]; exact ceil_fuel_big D _ hcyc)
    refine ⟨(⌈D / ((N : ℚ) * (Ton + Toff) + Tpause)⌉).toNat,
      (Pixel.set_all true (0, 0, 0) (Pixel.init_pixels true s).1).1, k,
      (Pixel.init_pixels true s).2.1 ++ es ++
        (Pixel.set_all true (0, 0, 0) (Pixel.init_pixels true s).1).2, ?_, ?_⟩
    · rw [Pixel.alarm_flash_true_eq, hre]
      rfl
    · exact patternLoop_iter_le _ _ _ _ _ _ _ _ _ _ hre

/-- C10 witness: instantiated at a concrete cycle time of 1 for both
drivers. -/
theorem C10_termination_witness :
    (∃ (fuel : ℕ) (s1 : Piezo.St) (k : ℕ) (tr : List Piezo.Ev),
        Piezo.alarm true fuel 1 1 1 0 0 none ⟨false⟩ = some (s1, k, tr, false) ∧
        k ≤ (⌈(1 : ℚ) / (((1 : ℕ) : ℚ) * (1 + 0) + 0)⌉).toNat) ∧
    (∃ (fuel : ℕ) (s1 : Pixel.St) (k : ℕ) (tr : List Pixel.Ev),
        Pixel.alarm_flash true fuel 1 1 0 1 0 (255, 0, 0) none ⟨false⟩ =
          some (s1, k, tr, false) ∧
        k ≤ (⌈(1 : ℚ) / (((1 : ℕ) : ℚ) * (1 + 0) + 0)⌉).toNat) :=
  ⟨C10_termination.1 1 1 1 0 0 ⟨false⟩ (by norm_num),
   C10_termination.2 1 1 0 1 0 (255, 0, 0) ⟨false⟩ (by norm_num)⟩

end PillSync
